import Mathlib

/-!
Shallow embedding of the `stepper` crate's three polled operation state
machines (`StepFuture` in `src/stepper/step.rs`, `SetStepModeFuture` in
`src/stepper/set_step_mode.rs`, `MoveToFuture` in `src/stepper/move_to.rs`).

Each `poll` method is embedded as a pure transition function.  The hardware
environment (driver, pins, timer) is abstracted by a per-poll "response"
record giving the outcome of each fallible hardware call the poll may make;
a poll returns the successor state, the poll result, and the list of
hardware calls it actually performed (in order).

A crucial point of the Rust source: inside a method returning
`Poll<Result<T, E>>`, the `?` operator early-returns `Poll::Ready(Err(e))`
without executing any further statements — in particular `self.state` is
NOT assigned on those paths, so the state is left unchanged.  Only the
explicit `Err(nb::Error::Other(err))` branches of the timer-wait matches
assign `self.state = State::Finished` before returning the error.
-/

namespace Stepper

/-- `core::task::Poll`. -/
inductive Poll (α : Type) where
  | Ready : α → Poll α
  | Pending : Poll α
deriving DecidableEq

/-- Rust `Result<(), E>` specialised to unit success, as returned by polls. -/
inductive RResult (ε : Type) where
  | ok : RResult ε
  | err : ε → RResult ε
deriving DecidableEq

/-- Outcome of a non-blocking `nb::Result<(), E>` wait on a timer:
`Ok(())`, `Err(nb::Error::Other(e))`, or `Err(nb::Error::WouldBlock)`. -/
inductive NbResult (ε : Type) where
  | ok : NbResult ε
  | other : ε → NbResult ε
  | wouldBlock : NbResult ε
deriving DecidableEq

/-- Whether an `nb` wait outcome is a hard error (`nb::Error::Other`). -/
def NbResult.isOther {ε : Type} : NbResult ε → Bool
  | .other _ => true
  | _ => false

/-! ## StepFuture (`src/stepper/step.rs`) -/

/-- `enum State` of `StepFuture`. -/
inductive StepState where
  | Initial
  | PulseStarted
  | Finished
deriving DecidableEq

/-- `SignalError<PinUnavailableError, PinError, TimerError>`: the error
union produced by `StepFuture::poll`. -/
inductive SignalError (α β γ : Type) where
  | PinUnavailable : α → SignalError α β γ
  | Pin : β → SignalError α β γ
  | Timer : γ → SignalError α β γ
deriving DecidableEq

/-- Hardware-call outcomes available to one invocation of
`StepFuture::poll`: `none` means the call succeeds, `some e` that it fails
with `e`.  `step` is the outcome of `driver.step()` (pin acquisition),
`setHigh`/`setLow` of driving the pin, `start` of `timer.start`, and
`wait` of `timer.wait()`. -/
structure StepResp (α β γ : Type) where
  step : Option α
  setHigh : Option β
  setLow : Option β
  start : Option γ
  wait : NbResult γ
deriving DecidableEq

/-- Hardware calls a `StepFuture::poll` invocation can perform. -/
inductive StepAction where
  | callStep
  | setHigh
  | setLow
  | timerStart
  | timerWait
deriving DecidableEq

/-- `StepFuture::poll`, embedded: given the current `self.state` and the
hardware outcomes for this invocation, return the state after the call,
the returned `Poll` value, and the hardware calls performed in order. -/
def stepPoll {α β γ : Type} (s : StepState) (r : StepResp α β γ) :
    StepState × Poll (RResult (SignalError α β γ)) × List StepAction :=
  match s with
  | .Initial =>
    match r.step with
    | some e => (.Initial, .Ready (.err (.PinUnavailable e)), [.callStep])
    | none =>
      match r.setHigh with
      | some e => (.Initial, .Ready (.err (.Pin e)), [.callStep, .setHigh])
      | none =>
        match r.start with
        | some e =>
          (.Initial, .Ready (.err (.Timer e)),
            [.callStep, .setHigh, .timerStart])
        | none =>
          (.PulseStarted, .Pending, [.callStep, .setHigh, .timerStart])
  | .PulseStarted =>
    match r.wait with
    | .ok =>
      match r.step with
      | some e =>
        (.PulseStarted, .Ready (.err (.PinUnavailable e)),
          [.timerWait, .callStep])
      | none =>
        match r.setLow with
        | some e =>
          (.PulseStarted, .Ready (.err (.Pin e)),
            [.timerWait, .callStep, .setLow])
        | none =>
          (.Finished, .Ready .ok, [.timerWait, .callStep, .setLow])
    | .other e => (.Finished, .Ready (.err (.Timer e)), [.timerWait])
    | .wouldBlock => (.PulseStarted, .Pending, [.timerWait])
  | .Finished => (.Finished, .Ready .ok, [])

/-! ## SetStepModeFuture (`src/stepper/set_step_mode.rs`) -/

/-- `enum State` of `SetStepModeFuture`. -/
inductive SsmState where
  | Initial
  | ApplyingConfig
  | EnablingDriver
  | Finished
deriving DecidableEq

/-- `Error<DriverError, TimeConversionError, TimerError>`: the error union
produced by `SetStepModeFuture::poll` (variants as used in the source:
`Error::Pin`, `Error::TimeConversion`, `Error::Timer`). -/
inductive SsmError (π κ τ : Type) where
  | Pin : π → SsmError π κ τ
  | TimeConversion : κ → SsmError π κ τ
  | Timer : τ → SsmError π κ τ
deriving DecidableEq

/-- Hardware-call outcomes available to one invocation of
`SetStepModeFuture::poll`: `applyModeConfig` for
`driver.apply_mode_config`, `convertSetup`/`convertHold` for the
`SETUP_TIME`/`HOLD_TIME` duration conversions, `tryStart` for
`timer.try_start`, `tryWait` for `timer.try_wait`, and `enableDriver` for
`driver.enable_driver`. -/
structure SsmResp (π κ τ : Type) where
  applyModeConfig : Option π
  convertSetup : Option κ
  convertHold : Option κ
  tryStart : Option τ
  tryWait : NbResult τ
  enableDriver : Option π
deriving DecidableEq

/-- Hardware calls a `SetStepModeFuture::poll` invocation can perform
(duration conversions are pure and not recorded as hardware calls). -/
inductive SsmAction where
  | applyModeConfig
  | enableDriver
  | timerStart
  | timerWait
deriving DecidableEq

/-- `SetStepModeFuture::poll`, embedded. -/
def ssmPoll {π κ τ : Type} (s : SsmState) (r : SsmResp π κ τ) :
    SsmState × Poll (RResult (SsmError π κ τ)) × List SsmAction :=
  match s with
  | .Initial =>
    match r.applyModeConfig with
    | some e => (.Initial, .Ready (.err (.Pin e)), [.applyModeConfig])
    | none =>
      match r.convertSetup with
      | some e =>
        (.Initial, .Ready (.err (.TimeConversion e)), [.applyModeConfig])
      | none =>
        match r.tryStart with
        | some e =>
          (.Initial, .Ready (.err (.Timer e)),
            [.applyModeConfig, .timerStart])
        | none =>
          (.ApplyingConfig, .Pending, [.applyModeConfig, .timerStart])
  | .ApplyingConfig =>
    match r.tryWait with
    | .ok =>
      match r.enableDriver with
      | some e =>
        (.ApplyingConfig, .Ready (.err (.Pin e)),
          [.timerWait, .enableDriver])
      | none =>
        match r.convertHold with
        | some e =>
          (.ApplyingConfig, .Ready (.err (.TimeConversion e)),
            [.timerWait, .enableDriver])
        | none =>
          match r.tryStart with
          | some e =>
            (.ApplyingConfig, .Ready (.err (.Timer e)),
              [.timerWait, .enableDriver, .timerStart])
          | none =>
            (.EnablingDriver, .Ready .ok,
              [.timerWait, .enableDriver, .timerStart])
    | .other e => (.Finished, .Ready (.err (.Timer e)), [.timerWait])
    | .wouldBlock => (.ApplyingConfig, .Pending, [.timerWait])
  | .EnablingDriver =>
    match r.tryWait with
    | .ok => (.Finished, .Ready .ok, [.timerWait])
    | .other e => (.Finished, .Ready (.err (.Timer e)), [.timerWait])
    | .wouldBlock => (.EnablingDriver, .Pending, [.timerWait])
  | .Finished => (.Finished, .Ready .ok, [])

/-! ## MoveToFuture (`src/stepper/move_to.rs`) -/

/-- `enum State<Velocity>` of `MoveToFuture`. -/
inductive MoveState (V : Type) where
  | Initial : V → Int → MoveState V
  | Moving : MoveState V
  | Finished : MoveState V
deriving DecidableEq

/-- Hardware-call outcomes available to one invocation of
`MoveToFuture::poll`: `moveToPosition` is the outcome of
`driver.move_to_position`, and `update` the outcome of `driver.update()`
(`.ok b` with `b` = "still moving", or `.error e`). -/
structure MoveResp (ε : Type) where
  moveToPosition : Option ε
  update : Except ε Bool

/-- Hardware calls a `MoveToFuture::poll` invocation can perform;
`moveToPosition` records the arguments it was called with. -/
inductive MoveAction (V : Type) where
  | moveToPosition : V → Int → MoveAction V
  | update : MoveAction V
deriving DecidableEq

/-- Whether a recorded hardware call is a `move_to_position` call. -/
def MoveAction.isStart {V : Type} : MoveAction V → Bool
  | .moveToPosition _ _ => true
  | .update => false

/-- `MoveToFuture::poll`, embedded. -/
def movePoll {V ε : Type} (s : MoveState V) (r : MoveResp ε) :
    MoveState V × Poll (RResult ε) × List (MoveAction V) :=
  match s with
  | .Initial v t =>
    match r.moveToPosition with
    | some e => (.Initial v t, .Ready (.err e), [.moveToPosition v t])
    | none => (.Moving, .Pending, [.moveToPosition v t])
  | .Moving =>
    match r.update with
    | .error e => (.Moving, .Ready (.err e), [.update])
    | .ok true => (.Moving, .Pending, [.update])
    | .ok false => (.Finished, .Ready .ok, [.update])
  | .Finished => (.Finished, .Ready .ok, [])

/-! ## Multi-poll runs and the `wait` busy loop -/

section Runner

variable {σ ρ R A : Type}

/-- Run a poll function over a list of per-poll hardware responses,
collecting for each poll the state after it, its result, and the hardware
calls it performed. -/
def runStates (f : σ → ρ → σ × Poll R × List A) :
    σ → List ρ → List (σ × Poll R × List A)
  | _, [] => []
  | s, r :: rs =>
    let out := f s r
    out :: runStates f out.1 rs

/-- The state after running a list of polls. -/
def runState (f : σ → ρ → σ × Poll R × List A) : σ → List ρ → σ
  | s, [] => s
  | s, r :: rs => runState f (f s r).1 rs

/-- All hardware calls performed over a run, in order. -/
def runActions (f : σ → ρ → σ × Poll R × List A) (s : σ)
    (rs : List ρ) : List A :=
  ((runStates f s rs).map (fun x => x.2.2)).flatten

/-- The `wait` busy loop shared by the three futures
(`loop { if let Poll::Ready(result) = self.poll() { return result } }`),
embedded over a finite supply of per-poll hardware responses; `none` when
the supply runs out before a poll returns `Ready`. -/
def waitPolls (f : σ → ρ → σ × Poll R × List A) : σ → List ρ → Option R
  | _, [] => none
  | s, r :: rs =>
    match f s r with
    | (_, .Ready res, _) => some res
    | (s2, .Pending, _) => waitPolls f s2 rs

/-- The value of `Poll.Ready`, if any. -/
def Poll.toReady {β : Type} : Poll β → Option β
  | .Ready v => some v
  | .Pending => none

/-- Modelled from the spec: "the Result carried by the first poll that
returns a ready (terminal) value" — the first `Ready` result among the
poll results of a run. -/
def firstTerminalResult (f : σ → ρ → σ × Poll R × List A) (s : σ)
    (rs : List ρ) : Option R :=
  ((runStates f s rs).map (fun x => x.2.1)).findSome? Poll.toReady

end Runner

/-- `StepFuture::wait`, embedded. -/
def stepWait {α β γ : Type} (s : StepState) (rs : List (StepResp α β γ)) :
    Option (RResult (SignalError α β γ)) :=
  waitPolls stepPoll s rs

/-- `SetStepModeFuture::wait`, embedded. -/
def ssmWait {π κ τ : Type} (s : SsmState) (rs : List (SsmResp π κ τ)) :
    Option (RResult (SsmError π κ τ)) :=
  waitPolls ssmPoll s rs

/-- `MoveToFuture::wait`, embedded. -/
def moveWait {V ε : Type} (s : MoveState V) (rs : List (MoveResp ε)) :
    Option (RResult ε) :=
  waitPolls movePoll s rs

/-- Per-poll responses for a `SetStepModeFuture` run against a mock timer
that reports "still counting" twice and then "done", with all other
hardware calls succeeding: the setup-wait is consulted on polls 2 and 3
(would-block) and poll 4 (done); poll 5 consults the hold-wait (done). -/
def ssmMockResponses : List (SsmResp ℕ ℕ ℕ) :=
  [⟨none, none, none, none, .wouldBlock, none⟩,
   ⟨none, none, none, none, .wouldBlock, none⟩,
   ⟨none, none, none, none, .wouldBlock, none⟩,
   ⟨none, none, none, none, .ok, none⟩,
   ⟨none, none, none, none, .ok, none⟩]

/-! ## Basic run lemmas -/

theorem runActions_nil {σ ρ R A : Type} (f : σ → ρ → σ × Poll R × List A)
    (s : σ) : runActions f s [] = [] := rfl

theorem runActions_cons {σ ρ R A : Type} (f : σ → ρ → σ × Poll R × List A)
    (s : σ) (r : ρ) (rs : List ρ) :
    runActions f s (r :: rs) = (f s r).2.2 ++ runActions f (f s r).1 rs := by
  simp [runActions, runStates]

/-- A state on which every poll is a no-op success is absorbing for runs. -/
theorem run_const {σ ρ R A : Type} (f : σ → ρ → σ × Poll R × List A)
    (s : σ) (v : R) (h : ∀ r, f s r = (s, .Ready v, ([] : List A))) :
    ∀ rs : List ρ,
      runState f s rs = s ∧ runActions f s rs = [] ∧
      (runStates f s rs).map (fun x => x.2.1) = rs.map (fun _ => .Ready v) := by
  intro rs
  induction rs with
  | nil => exact ⟨rfl, rfl, rfl⟩
  | cons r rs ih =>
    refine ⟨?_, ?_, ?_⟩
    · show runState f (f s r).1 rs = s
      rw [h r]; exact ih.1
    · rw [runActions_cons, h r]; simpa using ih.2.1
    · show ((f s r :: runStates f (f s r).1 rs).map (fun x => x.2.1)) = _
      rw [h r]; simpa using ih.2.2

/-- The busy-wait loop returns the first `Ready` result of the run. -/
theorem waitPolls_eq_firstTerminal {σ ρ R A : Type}
    (f : σ → ρ → σ × Poll R × List A) :
    ∀ (rs : List ρ) (s : σ), waitPolls f s rs = firstTerminalResult f s rs := by
  intro rs
  induction rs with
  | nil => intro s; rfl
  | cons r rs ih =>
    intro s
    rcases hf : f s r with ⟨s2, p, acts⟩
    cases p with
    | Ready res =>
      simp [waitPolls, firstTerminalResult, runStates, hf, Poll.toReady]
    | Pending =>
      simp [waitPolls, firstTerminalResult, runStates, hf, Poll.toReady]
      exact ih s2

/-- From `Moving` or `Finished`, no run ever calls `move_to_position`. -/
theorem moveRun_no_start {V ε : Type} :
    ∀ (rs : List (MoveResp ε)) (s : MoveState V),
      s = MoveState.Moving ∨ s = MoveState.Finished →
      (runActions movePoll s rs).countP MoveAction.isStart = 0 := by
  intro rs
  induction rs with
  | nil => intro s _; rfl
  | cons r rs ih =>
    intro s h
    rcases h with h | h <;> subst h
    · obtain ⟨m, u⟩ := r
      rcases u with e | b
      · simpa [runActions_cons, movePoll, MoveAction.isStart] using
          ih .Moving (Or.inl rfl)
      · cases b
        · simpa [runActions_cons, movePoll, MoveAction.isStart] using
            ih .Finished (Or.inr rfl)
        · simpa [runActions_cons, movePoll, MoveAction.isStart] using
            ih .Moving (Or.inl rfl)
    · simpa [runActions_cons, movePoll] using ih .Finished (Or.inr rfl)

/-! ## Claims -/

/-- C1 counterexample: in `StepFuture`'s `Initial` phase, a failing
`driver.step()` call surfaces the error but leaves the state at `Initial`,
not `Finished` — and `StepFuture`'s `Initial` phase is not the claim's
single exception. -/
theorem c1_counterexample :
    (stepPoll StepState.Initial
        (⟨some 0, none, none, none, .ok⟩ : StepResp ℕ ℕ ℕ)).2.1
      = .Ready (.err (.PinUnavailable 0)) ∧
    (stepPoll StepState.Initial
        (⟨some 0, none, none, none, .ok⟩ : StepResp ℕ ℕ ℕ)).1
      = .Initial := by decide

/-- C1 (amended): whenever a fallible step of a poll returns an error the
poll surfaces it, and the state after that poll is `Finished` exactly when
the error is a hard timer-wait error in a waiting phase (`StepFuture`'s
`PulseStarted`, `SetStepModeFuture`'s `ApplyingConfig`/`EnablingDriver`);
every other failing step leaves the state unchanged, and `MoveToFuture`
never changes state on an error at all. -/
theorem c1_amended :
    (∀ (α β γ : Type) (s : StepState) (r : StepResp α β γ)
        (e : SignalError α β γ),
      (stepPoll s r).2.1 = .Ready (.err e) →
      (stepPoll s r).1 =
        if s = StepState.PulseStarted ∧ r.wait.isOther = true
        then StepState.Finished else s) ∧
    (∀ (π κ τ : Type) (s : SsmState) (r : SsmResp π κ τ)
        (e : SsmError π κ τ),
      (ssmPoll s r).2.1 = .Ready (.err e) →
      (ssmPoll s r).1 =
        if (s = SsmState.ApplyingConfig ∨ s = SsmState.EnablingDriver)
            ∧ r.tryWait.isOther = true
        then SsmState.Finished else s) ∧
    (∀ (V ε : Type) (s : MoveState V) (r : MoveResp ε) (e : ε),
      (movePoll s r).2.1 = .Ready (.err e) → (movePoll s r).1 = s) := by
  refine ⟨?_, ?_, ?_⟩
  · intro α β γ s r e h
    obtain ⟨st, sh, sl, stt, w⟩ := r
    cases s <;> cases st <;> cases sh <;> cases sl <;> cases stt <;>
      cases w <;> simp_all [stepPoll, NbResult.isOther]
  · intro π κ τ s r e h
    obtain ⟨a, cs, ch, ts, tw, ed⟩ := r
    cases s <;> cases a <;> cases cs <;> cases ch <;> cases ts <;>
      cases tw <;> cases ed <;> simp_all [ssmPoll, NbResult.isOther]
  · intro V ε s r e h
    obtain ⟨m, u⟩ := r
    cases s <;> cases m <;> rcases u with e' | b <;>
      (try cases b) <;> simp_all [movePoll]

/-- C1 witness: the amended statement applied at a concrete failing
`step()` call in `StepFuture`'s `Initial` phase. -/
theorem c1_amended_witness :
    (stepPoll StepState.Initial
        (⟨some 1, none, none, none, .ok⟩ : StepResp ℕ ℕ ℕ)).1
      = StepState.Initial := by
  have h := c1_amended.1 ℕ ℕ ℕ StepState.Initial
    ⟨some 1, none, none, none, .ok⟩ (.PinUnavailable 1) (by decide)
  simpa using h

/-- C2 counterexample: after a first poll whose `set_high` fails with a
pin error, the state is still `Initial`, so a second poll (with all
hardware calls succeeding) re-runs the initial phase and returns
`Pending`, not success. -/
theorem c2_counterexample :
    (stepPoll StepState.Initial
        (⟨none, some 7, none, none, .ok⟩ : StepResp ℕ ℕ ℕ)).2.1
      = .Ready (.err (.Pin 7)) ∧
    (stepPoll
        (stepPoll StepState.Initial
          (⟨none, some 7, none, none, .ok⟩ : StepResp ℕ ℕ ℕ)).1
        (⟨none, none, none, none, .ok⟩ : StepResp ℕ ℕ ℕ)).2.1
      = .Pending := by decide

/-- C2 (amended): if driving the step signal high fails with a pin error
on the first poll, that poll returns exactly that pin error and the state
remains `Initial`; a second poll re-runs the initial phase — when its
hardware calls succeed it returns `Pending` and moves to `PulseStarted`,
not success. -/
theorem c2_amended {α β γ : Type} (e : β) (r1 r2 : StepResp α β γ)
    (h1 : r1.step = none) (h2 : r1.setHigh = some e)
    (h3 : r2.step = none) (h4 : r2.setHigh = none) (h5 : r2.start = none) :
    stepPoll StepState.Initial r1
      = (.Initial, .Ready (.err (.Pin e)), [.callStep, .setHigh]) ∧
    stepPoll (stepPoll StepState.Initial r1).1 r2
      = (.PulseStarted, .Pending, [.callStep, .setHigh, .timerStart]) := by
  simp [stepPoll, h1, h2, h3, h4, h5]

/-- C2 witness: the amended statement at a concrete pin error. -/
theorem c2_amended_witness :
    stepPoll StepState.Initial
        (⟨none, some 7, none, none, .wouldBlock⟩ : StepResp ℕ ℕ ℕ)
      = (.Initial, .Ready (.err (.Pin 7)), [.callStep, .setHigh]) ∧
    stepPoll
        (stepPoll StepState.Initial
          (⟨none, some 7, none, none, .wouldBlock⟩ : StepResp ℕ ℕ ℕ)).1
        (⟨none, none, none, none, .wouldBlock⟩ : StepResp ℕ ℕ ℕ)
      = (.PulseStarted, .Pending, [.callStep, .setHigh, .timerStart]) :=
  c2_amended 7 _ _ rfl rfl rfl rfl rfl

/-- C3 counterexample: after entering `Moving`, a poll whose `update`
call fails returns that error — polls after the transition out of
`Initial` can produce errors. -/
theorem c3_counterexample :
    (movePoll (MoveState.Initial (5 : ℕ) 10)
        (⟨none, .ok true⟩ : MoveResp ℕ)).1 = MoveState.Moving ∧
    (movePoll (MoveState.Moving : MoveState ℕ)
        (⟨none, .error 3⟩ : MoveResp ℕ)).2.1 = .Ready (.err 3) := by decide

/-- C3 (amended): once the operation has entered `Moving`, a subsequent
poll returns an error exactly when the driver's `update` call fails; once
it has entered `Finished`, no poll ever returns an error. -/
theorem c3_amended :
    (∀ (V ε : Type) (r : MoveResp ε) (e : ε),
      (movePoll (MoveState.Moving : MoveState V) r).2.1 = .Ready (.err e) ↔
        r.update = .error e) ∧
    (∀ (V ε : Type) (r : MoveResp ε),
      (movePoll (MoveState.Finished : MoveState V) r).2.1 = .Ready .ok) := by
  constructor
  · intro V ε r e
    obtain ⟨m, u⟩ := r
    rcases u with e' | b
    · simp [movePoll]
    · cases b <;> simp [movePoll]
  · intro V ε r; rfl

/-- C3 witness: the amended statement at a concrete failing `update`. -/
theorem c3_amended_witness :
    (movePoll (MoveState.Moving : MoveState ℕ)
        (⟨none, .error 9⟩ : MoveResp ℕ)).2.1 = .Ready (.err 9) :=
  (c3_amended.1 ℕ ℕ ⟨none, .error 9⟩ 9).mpr rfl

/-- C4: in `ApplyingConfig`, the poll that observes the setup timer done
(and whose enable/convert/start calls succeed) enables the driver, starts
the hold timer, transitions to `EnablingDriver`, and returns `Ready Ok`
on that same poll; a following poll whose hold wait is still counting
returns `Pending`, so success is reported while the hold timer runs. -/
theorem c4_early_success {π κ τ : Type} (r r2 : SsmResp π κ τ)
    (h1 : r.tryWait = .ok) (h2 : r.enableDriver = none)
    (h3 : r.convertHold = none) (h4 : r.tryStart = none)
    (h5 : r2.tryWait = .wouldBlock) :
    ssmPoll SsmState.ApplyingConfig r
      = (.EnablingDriver, .Ready .ok,
          [.timerWait, .enableDriver, .timerStart]) ∧
    ssmPoll (ssmPoll SsmState.ApplyingConfig r).1 r2
      = (.EnablingDriver, .Pending, [.timerWait]) := by
  simp [ssmPoll, h1, h2, h3, h4, h5]

/-- C4 witness: the statement at concrete responses. -/
theorem c4_early_success_witness :
    ssmPoll SsmState.ApplyingConfig
        (⟨none, none, none, none, .ok, none⟩ : SsmResp ℕ ℕ ℕ)
      = (.EnablingDriver, .Ready .ok,
          [.timerWait, .enableDriver, .timerStart]) ∧
    ssmPoll
        (ssmPoll SsmState.ApplyingConfig
          (⟨none, none, none, none, .ok, none⟩ : SsmResp ℕ ℕ ℕ)).1
        (⟨none, none, none, none, .wouldBlock, none⟩ : SsmResp ℕ ℕ ℕ)
      = (.EnablingDriver, .Pending, [.timerWait]) :=
  c4_early_success _ _ rfl rfl rfl rfl rfl

/-- C5: against `ssmMockResponses` (timer wait would-block twice, then
done), exactly the three polls 2-4 happen in `ApplyingConfig` (poll 4
leaves it); over the whole successful run `apply_mode_config` and
`enable_driver` each run exactly once, with the former strictly before
the latter, as the full ordered hardware-call trace shows. -/
theorem c5_mock_timer_run :
    (runStates ssmPoll SsmState.Initial ssmMockResponses).map (fun x => x.1)
      = [.ApplyingConfig, .ApplyingConfig, .ApplyingConfig,
         .EnablingDriver, .Finished] ∧
    (runStates ssmPoll SsmState.Initial ssmMockResponses).map
        (fun x => x.2.1)
      = [.Pending, .Pending, .Pending, .Ready .ok, .Ready .ok] ∧
    runActions ssmPoll SsmState.Initial ssmMockResponses
      = [.applyModeConfig, .timerStart, .timerWait, .timerWait, .timerWait,
         .enableDriver, .timerStart, .timerWait] ∧
    (runActions ssmPoll SsmState.Initial ssmMockResponses).count
        SsmAction.applyModeConfig = 1 ∧
    (runActions ssmPoll SsmState.Initial ssmMockResponses).count
        SsmAction.enableDriver = 1 := by decide

/-- C6 counterexample: when the first `move_to_position` call fails, the
state stays `Initial` and the next poll calls `move_to_position` again —
two polls, two start calls, refuting "exactly once regardless of how many
times the operation is polled". -/
theorem c6_counterexample :
    (runActions movePoll (MoveState.Initial (5 : ℕ) 10)
        [(⟨some 1, .ok true⟩ : MoveResp ℕ), ⟨some 1, .ok true⟩]).countP
      MoveAction.isStart = 2 := by decide

/-- C6 (amended): over any poll sequence whose first poll's
`move_to_position` call succeeds, `move_to_position` runs exactly once in
total; while in `Moving`, every poll performs exactly one `update` call,
returns `Pending` exactly when `update` reports motion still in progress,
and returns success with a transition to `Finished` exactly on the poll
where `update` reports motion finished. -/
theorem c6_amended :
    (∀ (V ε : Type) (v : V) (t : Int) (r : MoveResp ε)
        (rs : List (MoveResp ε)),
      r.moveToPosition = none →
      (runActions movePoll (MoveState.Initial v t) (r :: rs)).countP
        MoveAction.isStart = 1) ∧
    (∀ (V ε : Type) (r : MoveResp ε),
      (movePoll (MoveState.Moving : MoveState V) r).2.2 = [.update] ∧
      ((movePoll (MoveState.Moving : MoveState V) r).2.1 = .Pending ↔
        r.update = .ok true) ∧
      (((movePoll (MoveState.Moving : MoveState V) r).2.1 = .Ready .ok ∧
          (movePoll (MoveState.Moving : MoveState V) r).1 = .Finished) ↔
        r.update = .ok false)) := by
  constructor
  · intro V ε v t r rs h
    obtain ⟨m, u⟩ := r
    simp only at h
    subst h
    rw [runActions_cons]
    have hrest := moveRun_no_start rs (MoveState.Moving : MoveState V)
      (Or.inl rfl)
    simp [movePoll, List.countP_append, MoveAction.isStart, hrest]
  · intro V ε r
    obtain ⟨m, u⟩ := r
    rcases u with e' | b
    · simp [movePoll]
    · cases b <;> simp [movePoll]

/-- C6 witness: the amended statement at a concrete successful start. -/
theorem c6_amended_witness :
    (runActions movePoll (MoveState.Initial (5 : ℕ) 10)
        [(⟨none, .ok true⟩ : MoveResp ℕ)]).countP MoveAction.isStart = 1 :=
  c6_amended.1 ℕ ℕ 5 10 ⟨none, .ok true⟩ [] rfl

/-- C7: a first poll whose hardware calls all succeed returns `Pending`,
drives the signal high (and never low), and moves to `PulseStarted`; and
from any non-terminal state, a poll returning success must have observed
the timer done and performed the `set_low` call on that same poll,
transitioning to `Finished`. -/
theorem c7_pulse_discipline :
    (∀ (α β γ : Type) (r : StepResp α β γ),
      r.step = none → r.setHigh = none → r.start = none →
      stepPoll StepState.Initial r
        = (.PulseStarted, .Pending, [.callStep, .setHigh, .timerStart])) ∧
    (∀ (α β γ : Type) (s : StepState) (r : StepResp α β γ),
      s ≠ StepState.Finished → (stepPoll s r).2.1 = .Ready .ok →
      (stepPoll s r).1 = .Finished ∧ r.wait = .ok ∧
        StepAction.setLow ∈ (stepPoll s r).2.2) := by
  constructor
  · intro α β γ r h1 h2 h3
    simp [stepPoll, h1, h2, h3]
  · intro α β γ s r hs h
    obtain ⟨st, sh, sl, stt, w⟩ := r
    cases s <;> cases st <;> cases sh <;> cases sl <;> cases stt <;>
      cases w <;> simp_all [stepPoll]

/-- C7 witness: both parts at concrete inputs. -/
theorem c7_pulse_discipline_witness :
    stepPoll StepState.Initial
        (⟨none, none, none, none, .wouldBlock⟩ : StepResp ℕ ℕ ℕ)
      = (.PulseStarted, .Pending, [.callStep, .setHigh, .timerStart]) ∧
    ((stepPoll StepState.PulseStarted
          (⟨none, none, none, none, .ok⟩ : StepResp ℕ ℕ ℕ)).1
        = .Finished ∧
      (⟨none, none, none, none, .ok⟩ : StepResp ℕ ℕ ℕ).wait = .ok ∧
      StepAction.setLow ∈ (stepPoll StepState.PulseStarted
          (⟨none, none, none, none, .ok⟩ : StepResp ℕ ℕ ℕ)).2.2) :=
  ⟨c7_pulse_discipline.1 ℕ ℕ ℕ _ rfl rfl rfl,
   c7_pulse_discipline.2 ℕ ℕ ℕ StepState.PulseStarted _
     (by decide) (by decide)⟩

/-- C8: in the `Finished` phase, every further poll of any of the three
operations returns `Ready Ok`, performs no hardware calls, and leaves the
state at `Finished`, over runs of any length. -/
theorem c8_finished_idempotent :
    (∀ (α β γ : Type) (rs : List (StepResp α β γ)),
      runState stepPoll .Finished rs = .Finished ∧
      runActions stepPoll (.Finished : StepState) rs = [] ∧
      (runStates stepPoll (.Finished : StepState) rs).map (fun x => x.2.1)
        = rs.map (fun _ => .Ready .ok)) ∧
    (∀ (π κ τ : Type) (rs : List (SsmResp π κ τ)),
      runState ssmPoll .Finished rs = .Finished ∧
      runActions ssmPoll (.Finished : SsmState) rs = [] ∧
      (runStates ssmPoll (.Finished : SsmState) rs).map (fun x => x.2.1)
        = rs.map (fun _ => .Ready .ok)) ∧
    (∀ (V ε : Type) (rs : List (MoveResp ε)),
      runState movePoll (.Finished : MoveState V) rs = .Finished ∧
      runActions movePoll (.Finished : MoveState V) rs = [] ∧
      (runStates movePoll (.Finished : MoveState V) rs).map
          (fun x => x.2.1)
        = rs.map (fun _ => .Ready .ok)) :=
  ⟨fun _ _ _ => run_const stepPoll .Finished .ok (fun _ => rfl),
   fun _ _ _ => run_const ssmPoll .Finished .ok (fun _ => rfl),
   fun _ _ => run_const movePoll .Finished .ok (fun _ => rfl)⟩

/-- C9: for each of the three operations, the busy-loop `wait` returns
exactly the result carried by the first poll that comes back `Ready`
(and `none` when the response supply ends with every poll `Pending`). -/
theorem c9_wait_first_terminal :
    (∀ (α β γ : Type) (s : StepState) (rs : List (StepResp α β γ)),
      stepWait s rs = firstTerminalResult stepPoll s rs) ∧
    (∀ (π κ τ : Type) (s : SsmState) (rs : List (SsmResp π κ τ)),
      ssmWait s rs = firstTerminalResult ssmPoll s rs) ∧
    (∀ (V ε : Type) (s : MoveState V) (rs : List (MoveResp ε)),
      moveWait s rs = firstTerminalResult movePoll s rs) :=
  ⟨fun _ _ _ s rs => waitPolls_eq_firstTerminal stepPoll rs s,
   fun _ _ _ s rs => waitPolls_eq_firstTerminal ssmPoll rs s,
   fun _ _ s rs => waitPolls_eq_firstTerminal movePoll rs s⟩

/-- C10: in `Moving`, a poll whose `update` call fails returns that error
while the state remains `Moving`, and the very next poll performs the
`update` call again. -/
theorem c10_update_error_stays_moving {V ε : Type} (r r2 : MoveResp ε)
    (e : ε) (h : r.update = .error e) :
    (movePoll (MoveState.Moving : MoveState V) r).2.1 = .Ready (.err e) ∧
    (movePoll (MoveState.Moving : MoveState V) r).1 = .Moving ∧
    (movePoll (movePoll (MoveState.Moving : MoveState V) r).1 r2).2.2
      = [.update] := by
  obtain ⟨m, u⟩ := r
  simp only at h
  subst h
  obtain ⟨m2, u2⟩ := r2
  rcases u2 with e2 | b2
  · simp [movePoll]
  · cases b2 <;> simp [movePoll]

/-- C10 witness: the statement at a concrete failing `update`. -/
theorem c10_update_error_stays_moving_witness :
    (movePoll (MoveState.Moving : MoveState ℕ)
        (⟨none, .error 4⟩ : MoveResp ℕ)).2.1 = .Ready (.err 4) ∧
    (movePoll (MoveState.Moving : MoveState ℕ)
        (⟨none, .error 4⟩ : MoveResp ℕ)).1 = .Moving ∧
    (movePoll
        (movePoll (MoveState.Moving : MoveState ℕ)
          (⟨none, .error 4⟩ : MoveResp ℕ)).1
        (⟨none, .ok true⟩ : MoveResp ℕ)).2.2 = [.update] :=
  c10_update_error_stays_moving _ _ 4 rfl

end Stepper
